import Mathlib

/-!
Verification of the ORM record-session core of `oldbai555/lb`
(`orm/session/record.go`: `Insert` and `Find`), together with models of the
clause builder and the table-schema registry it uses.

Column values are modelled as integers (`Val`); errors as strings
(`GoError`). Go struct instances materialised by `Find` are modelled as
association lists from field name to value (`Elem`), since `Find` writes
each row's columns positionally into the fields named by the schema.
-/

abbrev Val := Int

abbrev GoError := String

/-- A materialised struct instance: field name paired with the value the
row scan wrote into it, in schema column order. -/
abbrev Elem := List (String × Val)

/-- A Go slice value. Go distinguishes a nil slice from an empty non-nil
slice; `reflect.Append` always yields a non-nil slice. -/
structure GoSlice where
  isNil : Bool
  elems : List Elem
deriving DecidableEq, Repr

/-- Model of `reflect.Append(destSlice, dest)` followed by `destSlice.Set`: the
destination becomes a non-nil slice with the element appended. -/
def goAppend (s : GoSlice) (x : Elem) : GoSlice :=
  ⟨false, s.elems ++ [x]⟩

/-- One row as delivered by the cursor's `Scan`: either the scan fails
(driver-forced failure) or it delivers the row's column values. -/
inductive RowRes where
  | scanFail (e : GoError)
  | cols (vs : List Val)
deriving DecidableEq, Repr

/-- The external executor's answer to `QueryRows`: either an immediate
query error, or a cursor given by its finite row sequence plus the error
`Close` will report. -/
structure QueryResult where
  queryErr : Option GoError
  rows : List RowRes
  closeErr : Option GoError
deriving DecidableEq, Repr

/-- How a call to `Find` ends: normally, with a returned error, or by a
runtime panic raised inside the `reflect` package. -/
inductive FindOutcome where
  | ok
  | err (e : GoError)
  | goPanic (msg : String)
deriving DecidableEq, Repr

def FindOutcome.isPanic : FindOutcome → Bool
  | .goPanic _ => true
  | _ => false

/-- The observable behaviour of one `Find` call: its outcome, the final
contents of the destination slice, and how many times `rows.Close()` ran. -/
structure FindTrace where
  outcome : FindOutcome
  dest : GoSlice
  closes : Nat
deriving DecidableEq, Repr

/-- The shape of the argument passed to `Find` (`values interface\x7b\x7d`):
a pointer to a slice of structs (the intended use), a bare slice (not a
pointer: `reflect.Indirect` leaves it unaddressable), or a scalar such as
an `int`, whose `reflect.Type.Elem()` panics. -/
inductive FindArg where
  | ptrToSlice (dest : GoSlice)
  | sliceArg (s : GoSlice)
  | scalar

/-- Panic message of `reflect.Type.Elem()` on a non-container kind. -/
def elemPanicMsg : String := "reflect: Elem of invalid type"

/-- Panic message of `reflect.Value.Set` on an unaddressable value. -/
def setPanicMsg : String := "reflect: reflect.Value.Set using unaddressable value"

/-- Model of `rows.Scan(valueList...)` for one row: a driver scan failure is
returned as an error; on success the columns are written positionally into
the fields named by `fns` (the schema's `FieldNames`, in order); a
column/target count mismatch is a scan error. -/
def scanRow (fns : List String) : RowRes → Except GoError Elem
  | .scanFail e => .error e
  | .cols vs =>
    if vs.length = fns.length then .ok (fns.zip vs)
    else .error "sql: column count mismatch"

/-- How `Find` returns after the row loop: `return rows.Close()`. -/
def closeOutcome : Option GoError → FindOutcome
  | none => .ok
  | some e => .err e

/-- The `for rows.Next()` loop of `Find` (record.go lines 47-58): scan each
row into a fresh zero element, append it to the destination, and on loop
exit return `rows.Close()`. A scan error returns immediately WITHOUT
closing the cursor. `settable` records whether `destSlice.Set` is legal
(false when the caller passed a bare slice, in which case the first
successful row panics). -/
def findLoop (fns : List String) (settable : Bool) (closeErr : Option GoError) :
    List RowRes → GoSlice → FindTrace
  | [], dest => ⟨closeOutcome closeErr, dest, 1⟩
  | r :: rest, dest =>
    match scanRow fns r with
    | .error e => ⟨.err e, dest, 0⟩
    | .ok x =>
      if settable then
        findLoop fns settable closeErr rest (goAppend dest x)
      else
        ⟨.goPanic setPanicMsg, dest, 0⟩

/-- Model of `Session.Find` (record.go lines 35-59), given the schema field names
`fns` already resolved by the registry. A scalar argument panics at
`destSlice.Type().Elem()`; a query error is returned before any cursor
exists; otherwise the row loop runs. -/
def find (arg : FindArg) (fns : List String) (q : QueryResult) : FindTrace :=
  match arg with
  | .scalar => ⟨.goPanic elemPanicMsg, ⟨true, []⟩, 0⟩
  | .ptrToSlice dest =>
    match q.queryErr with
    | some e => ⟨.err e, dest, 0⟩
    | none => findLoop fns true q.closeErr q.rows dest
  | .sliceArg s =>
    match q.queryErr with
    | some e => ⟨.err e, s, 0⟩
    | none => findLoop fns false q.closeErr q.rows s

/-- Modelled from the spec: the closed enumeration of clause kinds of the
`orm/clause` package, which is not under src/ (only its use in record.go
is). -/
inductive ClauseKind where
  | INSERT | VALUES | SELECT | WHERE | ORDERBY | LIMIT | UPDATE | DELETE
deriving DecidableEq, Repr

/-- Modelled from the spec: the Clause Set of the `orm/clause` package (not
under src/): a mapping from clause kind to a rendered SQL fragment plus its
parameter values. -/
structure Clause where
  m : ClauseKind → Option (String × List Val)

/-- Modelled from the spec: a fresh Clause Set with no kind stored. -/
def Clause.empty : Clause := ⟨fun _ => none⟩

/-- Modelled from the spec: `Set(kind, args...)` stores a rendered fragment
and its parameters for the kind, overwriting any prior fragment of the same
kind; it emits no SQL itself. -/
def Clause.set (c : Clause) (k : ClauseKind) (f : String × List Val) : Clause :=
  ⟨fun x => if x = k then some f else c.m x⟩

/-- Modelled from the spec: the loop inside `Build` — walk the requested
kinds in order, collecting the fragment text and appending the parameters
of each kind that was previously `Set`, skipping the rest silently. -/
def buildAux (c : Clause) : List ClauseKind → List String × List Val
  | [] => ([], [])
  | k :: rest =>
    let acc := buildAux c rest
    match c.m k with
    | some f => (f.1 :: acc.1, f.2 ++ acc.2)
    | none => acc

/-- Modelled from the spec: `Build(kinds...)` joins the collected fragment
texts with single spaces and returns them with the concatenated parameter
list. -/
def Clause.build (c : Clause) (kinds : List ClauseKind) : String × List Val :=
  (String.intercalate " " (buildAux c kinds).1, (buildAux c kinds).2)

/-- The spec's own description of `Build`, stated independently of the
loop: the fragments of the `Set` kinds, strictly in the order of the
`kinds` argument, joined for SQL, with parameter lists concatenated in the
same order. Used to check the loop implementation against the spec words. -/
def buildSpec (c : Clause) (kinds : List ClauseKind) : String × List Val :=
  (String.intercalate " " ((kinds.filterMap c.m).map Prod.fst),
   ((kinds.filterMap c.m).map Prod.snd).flatten)

/-- Modelled from the spec: the INSERT fragment generator — renders
`INSERT INTO table (columns)` and carries no parameters. -/
def genInsert (table : String) (fields : List String) : String × List Val :=
  ("INSERT INTO " ++ table ++ " (" ++ String.intercalate "," fields ++ ")", [])

/-- Modelled from the spec: the VALUES fragment generator — renders one
parenthesised placeholder tuple per record and carries, as parameters, all
record values flattened record-major then field-minor. -/
def genValues (records : List (List Val)) : String × List Val :=
  ("VALUES " ++ String.intercalate ", "
      (records.map fun r => "(" ++ String.intercalate ", " (r.map fun _ => "?") ++ ")"),
   records.flatten)

/-- Modelled from the spec: `table.RecordValues(value)` of the schema
package (not under src/) — the value's fields read in schema column order.
A struct value is modelled as a function from field name to value. -/
def RecordValues (fns : List String) (v : String → Val) : List Val :=
  fns.map v

/-- The Clause Set built by `Session.Insert` (record.go lines 12-19): one
`Set(INSERT, table.Name, table.FieldNames)` per input value inside the
loop, then a single `Set(VALUES, recordValues...)` after it. Each input
value is a triple of its table name, its schema field names and the struct
value itself (they coincide when all values share one type). -/
def insertClause (vs : List (String × List String × (String → Val))) : Clause :=
  Clause.set
    (vs.foldl (fun c v => Clause.set c .INSERT (genInsert v.1 v.2.1)) Clause.empty)
    .VALUES
    (genValues (vs.map fun v => RecordValues v.2.1 v.2.2))

/-- The single statement `Insert` builds: `clause.Build(INSERT, VALUES)`
(record.go line 20). -/
def insertStmt (vs : List (String × List String × (String → Val))) : String × List Val :=
  (insertClause vs).build [.INSERT, .VALUES]

/-- The sequence of `Exec` calls `Insert` issues to the executor: the one
call `s.Raw(sql, vars...).Exec()` at record.go line 21, after the loop. -/
def insertExecCalls (vs : List (String × List String × (String → Val))) :
    List (String × List Val) :=
  [insertStmt vs]

/-- Model of `Session.Insert` for a batch of same-typed values: every value shares
the one table name and field-name list. -/
def insert (table : String) (fns : List String) (values : List (String → Val)) :
    String × List Val :=
  insertStmt (values.map fun v => (table, fns, v))

/-- A Go struct type as the registry sees it: its name and its mappable
field names in declaration order. -/
structure GoType where
  name : String
  fields : List String
deriving DecidableEq, Repr

/-- Modelled from the spec: the TableSchema derived for a type by the
schema package (not under src/). -/
structure Schema where
  name : String
  fieldNames : List String
deriving DecidableEq, Repr

/-- Modelled from the spec: schema derivation — reflect over the type's
fields in declaration order; the table name comes from the type name. -/
def parseSchema (t : GoType) : Schema :=
  ⟨t.name, t.fields⟩

/-- Modelled from the spec: the registry's cache, keyed by type identity. -/
structure Registry where
  cache : List (GoType × Schema)
deriving DecidableEq, Repr

def lookupSchema : List (GoType × Schema) → GoType → Option Schema
  | [], _ => none
  | p :: rest, t => if p.1 = t then some p.2 else lookupSchema rest t

/-- Modelled from the spec: `Model(value)` — on a cache hit return the
cached schema unchanged; on the first call for a type derive the schema,
cache it and return it. The final component reports whether derivation
ran on this call. -/
def Registry.model (r : Registry) (t : GoType) : Schema × Registry × Bool :=
  match lookupSchema r.cache t with
  | some s => (s, r, false)
  | none => (parseSchema t, ⟨(t, parseSchema t) :: r.cache⟩, true)

/-- A well-formed registry cache: every cached schema is the one derivation
would produce for its type. Holds for the empty cache and is preserved by
`Registry.model`. -/
def RegistryWF (r : Registry) : Prop :=
  ∀ p ∈ r.cache, p.2 = parseSchema p.1

instance : DecidablePred RegistryWF := fun r =>
  List.decidableBAll _ r.cache

/-- Model of `Session.Find` at the session level (record.go line 38): the schema is
resolved through the registry from the destination element TYPE alone —
the code passes `reflect.New(destType).Elem().Interface()`, a freshly
created zero value of the element type, never an existing element — and
its `FieldNames` drive the row loop. -/
def sessionFind (r : Registry) (t : GoType) (arg : FindArg) (q : QueryResult) : FindTrace :=
  find arg ((r.model t).1).fieldNames q

/-- Modelled from the spec: a value passed to `Insert` as the registry
sees it — either a mappable struct carrying its table name, its
declaration-order field names and its field values, or a value whose
underlying type is not a mappable struct, which the schema package (not
under src/) rejects with an InvalidModel error rather than panicking. -/
inductive InsertVal where
  | struct (table : String) (fns : List String) (v : String → Val)
  | invalid

/-- How a call to `Insert` ends: an affected-row count, a returned error,
or a runtime panic (never produced — proven below). -/
inductive InsertOutcome where
  | done (n : Int)
  | err (e : GoError)
  | goPanic (msg : String)
deriving DecidableEq, Repr

def InsertOutcome.isPanic : InsertOutcome → Bool
  | .goPanic _ => true
  | _ => false

/-- The per-value loop of `Insert` (record.go lines 13-18): resolve each
value's schema in input order, aborting immediately with the registry's
InvalidModel error on the first non-mappable value. -/
def collectRecords : List InsertVal →
    Except GoError (List (String × List String × (String → Val)))
  | [] => .ok []
  | .invalid :: _ => .error "InvalidModel: value is not a mappable struct"
  | .struct t fns v :: rest => (collectRecords rest).map (fun l => (t, fns, v) :: l)

/-- Model of the full `Session.Insert` run (record.go lines 11-27): a
schema-derivation failure is returned as an error; otherwise the single
built statement goes to the executor once, whose error (from `Exec` or
`RowsAffected`) or affected-row count is returned. -/
def insertRun (values : List InsertVal)
    (exec : String × List Val → Except GoError Int) : InsertOutcome :=
  match collectRecords values with
  | .error e => .err e
  | .ok vs =>
    match exec (insertStmt vs) with
    | .error e => .err e
    | .ok n => .done n

/-! ## Helper lemmas -/

/-- A run of the row loop in which every row scans successfully: the loop
appends the materialised elements in arrival order, closes the cursor once
and returns the Close result. -/
theorem findLoop_all_ok (fns : List String) (closeErr : Option GoError)
    (rows : List (List Val)) :
    ∀ (dest : GoSlice), (∀ cs ∈ rows, cs.length = fns.length) →
      findLoop fns true closeErr (rows.map RowRes.cols) dest =
        ⟨closeOutcome closeErr,
         ⟨dest.isNil && rows.isEmpty, dest.elems ++ rows.map (fun cs => fns.zip cs)⟩, 1⟩ := by
  induction rows with
  | nil => intro dest _; simp [findLoop]
  | cons cs rest ih =>
    intro dest h
    have hlen : cs.length = fns.length := h cs (by simp)
    rw [List.map_cons, findLoop]
    simp only [scanRow, hlen, if_pos rfl, if_true]
    rw [ih (goAppend dest (fns.zip cs)) (fun x hx => h x (by simp [hx]))]
    simp [goAppend]

/-- A run of the row loop whose rows scan successfully up to a failing
`Scan`: the loop stops at the failure, keeps the elements already
appended, and never closes the cursor. -/
theorem findLoop_prefix_fail (fns : List String) (closeErr : Option GoError)
    (e : GoError) (post : List RowRes) (pre : List (List Val)) :
    ∀ (dest : GoSlice), (∀ cs ∈ pre, cs.length = fns.length) →
      findLoop fns true closeErr (pre.map RowRes.cols ++ RowRes.scanFail e :: post) dest =
        ⟨.err e,
         ⟨dest.isNil && pre.isEmpty, dest.elems ++ pre.map (fun cs => fns.zip cs)⟩, 0⟩ := by
  induction pre with
  | nil => intro dest _; simp [findLoop, scanRow]
  | cons cs rest ih =>
    intro dest h
    have hlen : cs.length = fns.length := h cs (by simp)
    rw [List.map_cons, List.cons_append, findLoop]
    simp only [scanRow, hlen, if_pos rfl, if_true]
    rw [ih (goAppend dest (fns.zip cs)) (fun x hx => h x (by simp [hx]))]
    simp [goAppend]

/-- The row loop never panics when the destination is settable. -/
theorem findLoop_no_panic (fns : List String) (closeErr : Option GoError)
    (rows : List RowRes) :
    ∀ dest, ((findLoop fns true closeErr rows dest).outcome).isPanic = false := by
  induction rows with
  | nil =>
    intro dest
    cases closeErr <;> simp [findLoop, closeOutcome, FindOutcome.isPanic]
  | cons r rest ih =>
    intro dest
    cases hs : scanRow fns r with
    | error e => simp [findLoop, hs, FindOutcome.isPanic]
    | ok x => simp [findLoop, hs, ih]

/-- The build loop collects exactly the fragments of the requested kinds
that were stored, in request order. -/
theorem buildAux_eq (c : Clause) (kinds : List ClauseKind) :
    buildAux c kinds =
      ((kinds.filterMap c.m).map Prod.fst,
       ((kinds.filterMap c.m).map Prod.snd).flatten) := by
  induction kinds with
  | nil => rfl
  | cons k rest ih =>
    cases hm : c.m k with
    | none => simp [buildAux, hm, List.filterMap_cons, ih]
    | some f => simp [buildAux, hm, List.filterMap_cons, ih]

/-- Folding `Set(INSERT, ...)` over a non-empty list leaves the last
element's fragment stored for the INSERT kind. -/
theorem foldl_set_last {α : Type} (f : α → String × List Val) :
    ∀ (vs : List α) (h : vs ≠ []) (c : Clause),
      (vs.foldl (fun acc v => Clause.set acc .INSERT (f v)) c).m .INSERT =
        some (f (vs.getLast h))
  | [], h, _ => absurd rfl h
  | [v], _, c => by simp [List.foldl, Clause.set]
  | v :: w :: rest, _, c => by
    have ih := foldl_set_last f (w :: rest) (List.cons_ne_nil _ _)
      (Clause.set c .INSERT (f v))
    simpa [List.foldl, List.getLast] using ih

/-- A schema found in a well-formed cache is the derived one. -/
theorem lookupSchema_sound :
    ∀ (cache : List (GoType × Schema)) (t : GoType) (s : Schema),
      (∀ p ∈ cache, p.2 = parseSchema p.1) → lookupSchema cache t = some s →
      s = parseSchema t := by
  intro cache
  induction cache with
  | nil => intro t s _ h; simp [lookupSchema] at h
  | cons p rest ih =>
    intro t s hwf h
    by_cases hp : p.1 = t
    · rw [lookupSchema, if_pos hp] at h
      have hs : p.2 = s := Option.some.inj h
      rw [← hs, hwf p (List.mem_cons_self _ _), hp]
    · rw [lookupSchema, if_neg hp] at h
      exact ih t s (fun q hq => hwf q (List.mem_cons_of_mem _ hq)) h

/-- With a well-formed cache, `Model` reports the type's declared fields
in declaration order. -/
theorem model_fieldNames (r : Registry) (t : GoType) (h : RegistryWF r) :
    ((r.model t).1).fieldNames = t.fields := by
  cases hl : lookupSchema r.cache t with
  | none => simp [Registry.model, hl, parseSchema]
  | some s =>
    have hs := lookupSchema_sound r.cache t s h hl
    simp [Registry.model, hl, hs, parseSchema]

/-- The INSERT fragment stored by `Insert`'s loop carries no parameters
(it is rendered by `genInsert`, whose parameter list is empty), or is
absent when the batch is empty. -/
theorem insertClause_INSERT_vars (vs : List (String × List String × (String → Val))) :
    (insertClause vs).m .INSERT = none ∨
      ∃ s, (insertClause vs).m .INSERT = some (s, []) := by
  cases vs with
  | nil => left; simp [insertClause, Clause.set, Clause.empty, List.foldl]
  | cons v rest =>
    right
    have h := foldl_set_last (fun v => genInsert v.1 v.2.1) (v :: rest)
      (List.cons_ne_nil _ _) Clause.empty
    refine ⟨(genInsert ((v :: rest).getLast (List.cons_ne_nil _ _)).1
      ((v :: rest).getLast (List.cons_ne_nil _ _)).2.1).1, ?_⟩
    simpa [insertClause, Clause.set, genInsert] using h

/-- The VALUES fragment stored by `Insert` is the one generated from all
records, in input order. -/
theorem insertClause_VALUES (vs : List (String × List String × (String → Val))) :
    (insertClause vs).m .VALUES =
      some (genValues (vs.map fun v => RecordValues v.2.1 v.2.2)) := by
  simp [insertClause, Clause.set]

/-- The parameters of the one statement `Insert` builds are all record
values, flattened record-major then field-minor in input order. -/
theorem insertStmt_params (vs : List (String × List String × (String → Val))) :
    (insertStmt vs).2 = (vs.map fun v => RecordValues v.2.1 v.2.2).flatten := by
  have hV := insertClause_VALUES vs
  rcases insertClause_INSERT_vars vs with h | ⟨s, h⟩
  · simp [insertStmt, Clause.build, buildAux, h, hV, genValues]
  · simp [insertStmt, Clause.build, buildAux, h, hV, genValues]

/-- Flattening one record of values per input element yields `N × K`
parameters. -/
theorem recordValues_flatten_length (fns : List String) (values : List (String → Val)) :
    ((values.map fun v => RecordValues fns v).flatten).length =
      values.length * fns.length := by
  induction values with
  | nil => simp
  | cons v rest ih =>
    rw [List.map_cons, List.flatten_cons, List.length_append, ih]
    simp only [RecordValues, List.length_map, List.length_cons]
    ring

/-! ## Claim theorems -/

/-- C1: refuted by the code — evaluation at the failing input. For a
healthy query returning three rows whose second row's `Scan` fails, `Find`
returns the scan error but never calls `rows.Close()`: the early
`return sErr` (record.go line 54) skips the `rows.Close()` at line 58 and
there is no `defer`, so the cursor is closed zero times, not exactly once. -/
theorem find_scan_error_leaks_cursor :
    find (.ptrToSlice ⟨true, []⟩) ["Name"]
      ⟨none, [.cols [1], .scanFail "forced scan failure", .cols [3]], none⟩ =
      ⟨.err "forced scan failure", ⟨false, [[("Name", 1)]]⟩, 0⟩ := by
  rfl

/-- C2, counterexample: `Find` called with a scalar argument (e.g. an
`int`, not a pointer to a slice) panics inside `reflect` at
`destSlice.Type().Elem()` instead of returning an error. -/
theorem find_scalar_arg_panics :
    (find .scalar ["Name"] ⟨none, [], none⟩).outcome = .goPanic elemPanicMsg := by
  rfl

/-- C2, amended: `Insert` never panics — for every input batch (mappable
or not) and every executor behaviour it completes with a row count or
returns an explicit error value — and `Find` never panics when its
argument is a pointer to a slice of the schema's struct type; only a
`Find` argument that is not a pointer to a slice of structs panics. -/
theorem insert_find_no_panic (values : List InsertVal)
    (exec : String × List Val → Except GoError Int)
    (dest : GoSlice) (fns : List String) (q : QueryResult) :
    (insertRun values exec).isPanic = false ∧
    ((find (.ptrToSlice dest) fns q).outcome).isPanic = false := by
  constructor
  · cases hc : collectRecords values with
    | error e => simp [insertRun, hc, InsertOutcome.isPanic]
    | ok vs =>
      cases hx : exec (insertStmt vs) with
      | error e => simp [insertRun, hc, hx, InsertOutcome.isPanic]
      | ok n => simp [insertRun, hc, hx, InsertOutcome.isPanic]
  · cases hq : q.queryErr with
    | some e => simp [find, hq, FindOutcome.isPanic]
    | none => simp [find, hq, findLoop_no_panic]

/-- C3: a batch `Insert` of N same-typed values with K mappable fields
issues exactly one `Exec` statement, whose parameter list is all record
values flattened record-major then field-minor in input order, of length
N × K. -/
theorem insert_one_stmt_record_major (table : String) (fns : List String)
    (values : List (String → Val)) :
    (insertExecCalls (values.map fun v => (table, fns, v))).length = 1 ∧
    (insert table fns values).2 = (values.map fun v => RecordValues fns v).flatten ∧
    ((insert table fns values).2).length = values.length * fns.length := by
  have hp : (insert table fns values).2 =
      (values.map fun v => RecordValues fns v).flatten := by
    have h := insertStmt_params (values.map fun v => (table, fns, v))
    rw [List.map_map] at h
    exact h
  exact ⟨rfl, hp, by rw [hp]; exact recordValues_flatten_length fns values⟩

/-- C4: when scanning the row after `pre` fails, `Find` returns the scan
error immediately and the destination holds exactly the elements
materialised from the preceding rows, in order — the partial result is
observable, not rolled back. -/
theorem find_scan_error_partial_result (dest : GoSlice) (fns : List String)
    (pre : List (List Val)) (e : GoError) (post : List RowRes) (closeErr : Option GoError)
    (h : ∀ cs ∈ pre, cs.length = fns.length) :
    find (.ptrToSlice dest) fns
        ⟨none, pre.map RowRes.cols ++ RowRes.scanFail e :: post, closeErr⟩ =
      ⟨.err e,
       ⟨dest.isNil && pre.isEmpty, dest.elems ++ pre.map (fun cs => fns.zip cs)⟩, 0⟩ := by
  simp only [find]
  exact findLoop_prefix_fail fns closeErr e post pre dest h

/-- C4 witness: a query of four rows whose third row's scan fails leaves
exactly the first two rows' elements in the destination. -/
theorem find_scan_error_partial_result_witness :
    find (.ptrToSlice ⟨false, []⟩) ["Id", "Age"]
      ⟨none, [.cols [1, 10], .cols [2, 20], .scanFail "bad row", .cols [4, 40]], none⟩ =
      ⟨.err "bad row", ⟨false, [[("Id", 1), ("Age", 10)], [("Id", 2), ("Age", 20)]]⟩, 0⟩ := by
  have h := find_scan_error_partial_result ⟨false, []⟩ ["Id", "Age"]
    [[1, 10], [2, 20]] "bad row" [.cols [4, 40]] none (by decide)
  exact h.trans (by rfl)

/-- C5, counterexample: a `Find` whose query yields zero rows into a nil
destination slice returns success but leaves the destination nil — the
loop body, the only place that replaces the slice, never runs, so the
destination is NOT guaranteed non-nil. -/
theorem find_zero_rows_dest_stays_nil :
    find (.ptrToSlice ⟨true, []⟩) ["Name"] ⟨none, [], none⟩ =
      ⟨.ok, ⟨true, []⟩, 1⟩ := by
  rfl

/-- C5, amended: a `Find` whose query yields zero rows (with a healthy
close) returns a nil error and leaves the destination exactly as it was:
empty, and still nil if it was nil before the call. -/
theorem find_zero_rows_success_unchanged (dest : GoSlice) (fns : List String) :
    find (.ptrToSlice dest) fns ⟨none, [], none⟩ = ⟨.ok, dest, 1⟩ := by
  rfl

/-- A concrete Clause Set with only SELECT and WHERE stored, used to
exercise the builder on the spec's own example kind list. -/
def demoClause : Clause :=
  (Clause.empty.set .SELECT ("SELECT Name,Age FROM User", [])).set
    .WHERE ("WHERE Age > ?", [18])

/-- A concrete two-record batch with differing table names, exercising the
replacement of the INSERT fragment inside `Insert`'s loop. -/
def demoInsertBatch : List (String × List String × (String → Val)) :=
  [("t1", ["A"], fun _ => 1), ("t2", ["B"], fun _ => 2)]

/-- C6: `Build` renders exactly the stored fragments, strictly in the
order of the requested kind list with parameters concatenated in the same
order (the spec's reading `buildSpec`), and a kind never `Set` contributes
no fragment and no parameters and raises no error: dropping it from the
request list leaves the result unchanged. -/
theorem build_kind_order_and_skip (c : Clause) (kinds xs ys : List ClauseKind)
    (k : ClauseKind) (h : c.m k = none) :
    c.build kinds = buildSpec c kinds ∧
    c.build (xs ++ k :: ys) = c.build (xs ++ ys) := by
  constructor
  · simp [Clause.build, buildSpec, buildAux_eq]
  · simp [Clause.build, buildAux_eq, List.filterMap_append, List.filterMap_cons, h]

/-- C6 witness: building `[SELECT, WHERE, ORDERBY, LIMIT]` from a Clause
Set holding only SELECT and WHERE matches the spec reading, and the unset
ORDERBY contributes nothing. -/
theorem build_kind_order_and_skip_witness :
    demoClause.build [.SELECT, .WHERE, .ORDERBY, .LIMIT] =
      buildSpec demoClause [.SELECT, .WHERE, .ORDERBY, .LIMIT] ∧
    demoClause.build ([.SELECT, .WHERE] ++ .ORDERBY :: [.LIMIT]) =
      demoClause.build ([.SELECT, .WHERE] ++ [.LIMIT]) :=
  build_kind_order_and_skip demoClause [.SELECT, .WHERE, .ORDERBY, .LIMIT]
    [.SELECT, .WHERE] [.LIMIT] .ORDERBY rfl

/-- C7: `Set` is last-write-wins — setting the same kind twice equals
setting only the second fragment — and consequently the INSERT fragment
stored after `Insert`'s per-value loop is the last value's table name and
column list. -/
theorem set_last_write_wins (c : Clause) (k : ClauseKind) (a b : String × List Val)
    (vs : List (String × List String × (String → Val))) (h : vs ≠ []) :
    (c.set k a).set k b = c.set k b ∧
    (insertClause vs).m .INSERT =
      some (genInsert (vs.getLast h).1 (vs.getLast h).2.1) := by
  constructor
  · simp only [Clause.set]
    congr 1
    funext x
    by_cases hx : x = k <;> simp [hx]
  · have hl := foldl_set_last (fun v => genInsert v.1 v.2.1) vs h Clause.empty
    simpa [insertClause, Clause.set] using hl

/-- C7 witness: a double `Set(LIMIT, ...)` keeps only the second fragment,
and the two-record batch with differing tables leaves the second record's
table and column list in the INSERT fragment. -/
theorem set_last_write_wins_witness :
    (demoClause.set .LIMIT ("LIMIT ?", [1])).set .LIMIT ("LIMIT ?", [2]) =
      demoClause.set .LIMIT ("LIMIT ?", [2]) ∧
    (insertClause demoInsertBatch).m .INSERT = some (genInsert "t2" ["B"]) := by
  have h := set_last_write_wins demoClause .LIMIT ("LIMIT ?", [1]) ("LIMIT ?", [2])
    demoInsertBatch (List.cons_ne_nil _ _)
  exact ⟨h.1, h.2.trans (by rfl)⟩

/-- C8: with a well-formed registry, `Find` derives the schema from the
destination's element type alone (the freshly created zero value only
carries the type), scans each row positionally into the fields named by
the schema in its column order, and appends the materialised elements in
cursor row-arrival order, so the destination preserves the row order. -/
theorem sessionFind_schema_and_row_order (r : Registry) (t : GoType) (dest : GoSlice)
    (rows : List (List Val)) (closeErr : Option GoError)
    (hwf : RegistryWF r) (hlen : ∀ cs ∈ rows, cs.length = t.fields.length) :
    sessionFind r t (.ptrToSlice dest) ⟨none, rows.map RowRes.cols, closeErr⟩ =
      ⟨closeOutcome closeErr,
       ⟨dest.isNil && rows.isEmpty, dest.elems ++ rows.map (fun cs => t.fields.zip cs)⟩, 1⟩ := by
  rw [sessionFind, model_fieldNames r t hwf]
  simp only [find]
  exact findLoop_all_ok t.fields closeErr rows dest hlen

/-- C8 witness: two rows land in the destination in arrival order, with
columns written to the declared fields in order. -/
theorem sessionFind_schema_and_row_order_witness :
    sessionFind ⟨[]⟩ ⟨"User", ["Name", "Age"]⟩ (.ptrToSlice ⟨true, []⟩)
      ⟨none, [.cols [1, 10], .cols [2, 20]], none⟩ =
      ⟨.ok, ⟨false, [[("Name", 1), ("Age", 10)], [("Name", 2), ("Age", 20)]]⟩, 1⟩ := by
  have h := sessionFind_schema_and_row_order ⟨[]⟩ ⟨"User", ["Name", "Age"]⟩ ⟨true, []⟩
    [[1, 10], [2, 20]] none (by decide) (by decide)
  exact h.trans (by rfl)

/-- C9: with a well-formed cache, `Model` returns a schema whose field
list is exactly the type's declared mappable fields in declaration order;
a repeated call for the same type returns the same schema from the cache,
leaves the registry unchanged, runs no derivation, and well-formedness is
preserved. -/
theorem model_fields_cached (r : Registry) (t : GoType) (h : RegistryWF r) :
    ((r.model t).1).fieldNames = t.fields ∧
    (((r.model t).2.1).model t).1 = (r.model t).1 ∧
    (((r.model t).2.1).model t).2.1 = (r.model t).2.1 ∧
    (((r.model t).2.1).model t).2.2 = false ∧
    RegistryWF (r.model t).2.1 := by
  refine ⟨model_fieldNames r t h, ?_⟩
  cases hl : lookupSchema r.cache t with
  | some s =>
    refine ⟨?_, ?_, ?_, ?_⟩ <;> simp [Registry.model, hl]
    exact h
  | none =>
    have hsecond : lookupSchema ((t, parseSchema t) :: r.cache) t = some (parseSchema t) := by
      simp [lookupSchema]
    refine ⟨?_, ?_, ?_, ?_⟩
    · simp [Registry.model, hl, hsecond]
    · simp [Registry.model, hl, hsecond]
    · simp [Registry.model, hl, hsecond]
    · simp only [Registry.model, hl]
      intro p hp
      rcases List.mem_cons.mp hp with hp | hp
      · rw [hp]
      · exact h p hp

/-- C9 witness: on an empty (hence well-formed) registry, the first call
for a type derives its declared fields and the second call is a pure cache
hit. -/
theorem model_fields_cached_witness :
    ((Registry.model ⟨[]⟩ ⟨"Account", ["Id", "Owner"]⟩).1).fieldNames = ["Id", "Owner"] ∧
    ((((Registry.model ⟨[]⟩ ⟨"Account", ["Id", "Owner"]⟩).2.1).model
        ⟨"Account", ["Id", "Owner"]⟩).1) = (Registry.model ⟨[]⟩ ⟨"Account", ["Id", "Owner"]⟩).1 ∧
    ((((Registry.model ⟨[]⟩ ⟨"Account", ["Id", "Owner"]⟩).2.1).model
        ⟨"Account", ["Id", "Owner"]⟩).2.1) = (Registry.model ⟨[]⟩ ⟨"Account", ["Id", "Owner"]⟩).2.1 ∧
    ((((Registry.model ⟨[]⟩ ⟨"Account", ["Id", "Owner"]⟩).2.1).model
        ⟨"Account", ["Id", "Owner"]⟩).2.2) = false ∧
    RegistryWF (Registry.model ⟨[]⟩ ⟨"Account", ["Id", "Owner"]⟩).2.1 :=
  model_fields_cached ⟨[]⟩ ⟨"Account", ["Id", "Owner"]⟩ (by decide)

/-- C10: when the cursor is exhausted normally (every row scans), `Find`
returns exactly the result of `rows.Close()` — a Close error is reported
to the caller even though all rows were already materialised — and the
cursor is closed exactly once. -/
theorem find_normal_exhaustion_returns_close (dest : GoSlice) (fns : List String)
    (rows : List (List Val)) (closeErr : Option GoError)
    (h : ∀ cs ∈ rows, cs.length = fns.length) :
    find (.ptrToSlice dest) fns ⟨none, rows.map RowRes.cols, closeErr⟩ =
      ⟨closeOutcome closeErr,
       ⟨dest.isNil && rows.isEmpty, dest.elems ++ rows.map (fun cs => fns.zip cs)⟩, 1⟩ := by
  simp only [find]
  exact findLoop_all_ok fns closeErr rows dest h

/-- C10 witness: a one-row query whose `Close` fails materialises the row
yet returns the Close error, with exactly one Close. -/
theorem find_normal_exhaustion_returns_close_witness :
    find (.ptrToSlice ⟨false, []⟩) ["Id"]
      ⟨none, [.cols [7]], some "close failed"⟩ =
      ⟨.err "close failed", ⟨false, [[("Id", 7)]]⟩, 1⟩ := by
  have h := find_normal_exhaustion_returns_close ⟨false, []⟩ ["Id"] [[7]]
    (some "close failed") (by decide)
  exact h.trans (by rfl)
